import Mathlib

/-!
# Verification of the `ifs` client-side plumbing

A shallow embedding, in Lean 4, of the core of the `ifs` userspace remote
filesystem client: the frame codec (`Packet.Marshal` / `Packet.Unmarshal`),
the talker's egress and ingress workers, the keepalive loop, and the
`RemoteNode` upcalls (`Attr`, `Lookup`, `Create`, `Mkdir`, `Remove`,
`Rename`).

Go interface values are modelled by the inductive `Payload`, which keeps the
distinction between a pointer to a record (`pError`) and a record value
(`vError`): a Go type assertion `x.(Error)` succeeds only on the value form
while `x.(*Error)` succeeds only on the pointer form, and this distinction is
observable in the node layer.  Go runtime panics and `zap.Fatal` process
termination are modelled by the `GoResult` outcome type.  Machine integers
are `Nat` with explicit `% 2^64` where the code can overflow (the request-id
counter); fields that Go's types already bound (uint8, uint64) carry their
bounds as hypotheses.
-/

namespace Ifs

/-- Outcome of running a piece of Go code: a normal return, process
termination through `zap.L().Fatal`, or a Go runtime panic (failed type
assertion, nil dereference, out-of-range slice index). -/
inductive GoResult (α : Type) where
  | ok (a : α)
  | fatal
  | panicked
deriving DecidableEq, Repr

/-! ## Record types carried as packet payloads

`RemotePath`, `ReadDirInfo`, `AttrInfo`, `Stat`, `DirInfo` and `Error` have
the fields the source reads and writes.  The records whose declarations are
not part of the sources at hand (`ReadInfo`, `WriteInfo`, `CreateInfo`,
`RenameInfo`, `OpenInfo`, `CloseInfo`, `FileChunk`, `WriteResult`) are
modelled from the spec: each carries the fields the spec names for the
corresponding request or response (remote fd / offset / size / data / source
and destination paths).  A Go `error` value is modelled by its message
string. -/

structure RemotePath where
  Hostname : String
  Port : Nat
  Path : String
deriving DecidableEq, Repr

structure ReadDirInfo where
  RemotePath : RemotePath
  FileDescriptor : Nat
deriving DecidableEq, Repr

/-- Modelled from the spec: payload of `ReadFileRequest(remote_fd, offset, size)`. -/
structure ReadInfo where
  FileDescriptor : Nat
  Offset : Int
  Size : Nat
deriving DecidableEq, Repr

/-- Modelled from the spec: payload of `WriteFileRequest(remote_fd, offset, data)`. -/
structure WriteInfo where
  FileDescriptor : Nat
  Offset : Int
  Data : List Nat
deriving DecidableEq, Repr

structure AttrInfo where
  RemotePath : RemotePath
  Valid : Nat
  Size : Nat
  Mode : Nat
  ATime : Int
  MTime : Int
deriving DecidableEq, Repr

/-- Modelled from the spec: payload of `CreateRequest` (parent path, name,
directory flag). -/
structure CreateInfo where
  BaseDir : RemotePath
  Name : String
  IsDir : Bool
deriving DecidableEq, Repr

/-- Modelled from the spec: payload of `RenameRequest` (source path record and
destination path). -/
structure RenameInfo where
  RemotePath : RemotePath
  DestPath : String
deriving DecidableEq, Repr

/-- Modelled from the spec: payload of `OpenRequest`. -/
structure OpenInfo where
  RemotePath : RemotePath
  FileDescriptor : Nat
  Flags : Nat
deriving DecidableEq, Repr

/-- Modelled from the spec: payload of `CloseRequest`. -/
structure CloseInfo where
  RemotePath : RemotePath
  FileDescriptor : Nat
deriving DecidableEq, Repr

structure Stat where
  Name : String
  IsDir : Bool
  Mode : Nat
  Size : Int
  ModTime : Int
deriving DecidableEq, Repr

structure DirInfo where
  Stats : List Stat
deriving DecidableEq, Repr

/-- Modelled from the spec: a file-content chunk of `FileDataResponse`. -/
structure FileChunk where
  Chunk : List Nat
deriving DecidableEq, Repr

/-- Modelled from the spec: payload of the write acknowledgement. -/
structure WriteResult where
  Size : Nat
deriving DecidableEq, Repr

structure Error where
  Err : String
deriving DecidableEq, Repr

/-- A Go `Payload` interface value.  Constructors prefixed `p` are pointers
to the record (`*T`); `vError` is a non-pointer `Error` value (what the node
layer's `resp.Data.(Error)` assertion tests for); `nilPayload` is the nil
interface. -/
inductive Payload where
  | pRemotePath (v : RemotePath)
  | pReadDirInfo (v : ReadDirInfo)
  | pReadInfo (v : ReadInfo)
  | pWriteInfo (v : WriteInfo)
  | pAttrInfo (v : AttrInfo)
  | pCreateInfo (v : CreateInfo)
  | pRenameInfo (v : RenameInfo)
  | pOpenInfo (v : OpenInfo)
  | pCloseInfo (v : CloseInfo)
  | pStat (v : Stat)
  | pDirInfo (v : DirInfo)
  | pFileChunk (v : FileChunk)
  | pWriteResult (v : WriteResult)
  | pError (v : Error)
  | vError (v : Error)
  | nilPayload
deriving DecidableEq, Repr

/-- The Go type assertion `x.(Error)` with the two-result form: succeeds only
on a non-pointer `Error` value. -/
def Payload.asValError : Payload → Option Error
  | .vError e => some e
  | _ => none

/-- The Go type assertion `x.(*Stat)`. -/
def Payload.asPtrStat : Payload → Option Stat
  | .pStat s => some s
  | _ => none

/-- The Go type assertion `x.(*DirInfo)`. -/
def Payload.asPtrDirInfo : Payload → Option DirInfo
  | .pDirInfo d => some d
  | _ => none

/-! ## Op codes

The first eight constants are the values of `constants.go`; the remaining
ones name ops the code uses whose constant declarations are not among the
sources, so they are modelled from the spec ("values are arbitrary so long
as client and agent agree"): distinct uint8 values disjoint from the known
ones. -/

def AttrRequest : Nat := 0
def ReadDirRequest : Nat := 1
def FetchFileRequest : Nat := 2
def ReadFileRequest : Nat := 3
def WriteFileRequest : Nat := 4
def StatResponse : Nat := 10
def StatsResponse : Nat := 11
def FileDataResponse : Nat := 12

/-- Modelled from the spec: op code missing from `constants.go`. -/
def ReadDirAllRequest : Nat := 5

/-- Modelled from the spec: op code missing from `constants.go`. -/
def SetAttrRequest : Nat := 6

/-- Modelled from the spec: op code missing from `constants.go`. -/
def CreateRequest : Nat := 7

/-- Modelled from the spec: op code missing from `constants.go`. -/
def RemoveRequest : Nat := 8

/-- Modelled from the spec: op code missing from `constants.go`. -/
def RenameRequest : Nat := 9

/-- Modelled from the spec: op code missing from `constants.go`. -/
def OpenRequest : Nat := 13

/-- Modelled from the spec: op code missing from `constants.go`. -/
def CloseRequest : Nat := 14

/-- Modelled from the spec: op code missing from `constants.go`. -/
def WriteResponse : Nat := 15

/-- Modelled from the spec: op code missing from `constants.go`. -/
def ErrorResponse : Nat := 16

/-! ## Wire model

The wire is a stream of tokens.  Header bytes are genuine bytes (`byte`);
the payload region is produced by msgpack, which the spec fixes as an opaque
tagged structured-record encoder, modelled here as a stream of tagged
primitive tokens. -/

/-- One token on the wire: a raw header byte, or a tagged primitive value of
the opaque structured-record encoding. -/
inductive Wire where
  | byte (b : Nat)
  | num (n : Nat)
  | int (i : Int)
  | str (s : String)
  | bool (b : Bool)
deriving DecidableEq, Repr

/-- `binary.BigEndian.PutUint64`: the eight big-endian bytes of a uint64. -/
def u64be (n : Nat) : List Wire :=
  [.byte (n / 2 ^ 56 % 256), .byte (n / 2 ^ 48 % 256), .byte (n / 2 ^ 40 % 256),
   .byte (n / 2 ^ 32 % 256), .byte (n / 2 ^ 24 % 256), .byte (n / 2 ^ 16 % 256),
   .byte (n / 2 ^ 8 % 256), .byte (n % 256)]

/-- `binary.BigEndian.Uint64`: recombine eight big-endian bytes. -/
def deU64be (b0 b1 b2 b3 b4 b5 b6 b7 : Nat) : Nat :=
  b0 * 2 ^ 56 + b1 * 2 ^ 48 + b2 * 2 ^ 40 + b3 * 2 ^ 32 +
    b4 * 2 ^ 24 + b5 * 2 ^ 16 + b6 * 2 ^ 8 + b7

/-! ### The opaque record codec (msgpack model)

Modelled from the spec: the serialization codec is "an opaque structured
binary encoder of tagged records" chosen at build time; its only property
the client relies on is that decoding into the record type selected by the
op code inverts encoding.  Each record is encoded as the sequence of its
fields' tokens; decoders parse a prefix and return the rest of the stream. -/

def encRemotePath (v : RemotePath) : List Wire :=
  [.str v.Hostname, .num v.Port, .str v.Path]

def decRemotePath : List Wire → Option (RemotePath × List Wire)
  | .str h :: .num p :: .str pa :: rest => some (⟨h, p, pa⟩, rest)
  | _ => none

def encStat (v : Stat) : List Wire :=
  [.str v.Name, .bool v.IsDir, .num v.Mode, .int v.Size, .int v.ModTime]

def decStat : List Wire → Option (Stat × List Wire)
  | .str n :: .bool d :: .num m :: .int s :: .int t :: rest => some (⟨n, d, m, s, t⟩, rest)
  | _ => none

def encStatList : List Stat → List Wire
  | [] => []
  | s :: l => encStat s ++ encStatList l

def encStats (l : List Stat) : List Wire :=
  .num l.length :: encStatList l

def decStatsAux : Nat → List Wire → Option (List Stat × List Wire)
  | 0, rest => some ([], rest)
  | n + 1, ws =>
    match decStat ws with
    | some (s, rest) =>
      match decStatsAux n rest with
      | some (l, rest2) => some (s :: l, rest2)
      | none => none
    | none => none

def decStats : List Wire → Option (List Stat × List Wire)
  | .num n :: rest => decStatsAux n rest
  | _ => none

def encByteList : List Nat → List Wire
  | [] => []
  | b :: l => .num b :: encByteList l

def encBytes (l : List Nat) : List Wire :=
  .num l.length :: encByteList l

def decBytesAux : Nat → List Wire → Option (List Nat × List Wire)
  | 0, rest => some ([], rest)
  | n + 1, ws =>
    match ws with
    | .num b :: rest =>
      match decBytesAux n rest with
      | some (l, rest2) => some (b :: l, rest2)
      | none => none
    | _ => none

def decBytes : List Wire → Option (List Nat × List Wire)
  | .num n :: rest => decBytesAux n rest
  | _ => none

def encReadDirInfo (v : ReadDirInfo) : List Wire :=
  encRemotePath v.RemotePath ++ [.num v.FileDescriptor]

def decReadDirInfo (ws : List Wire) : Option (ReadDirInfo × List Wire) :=
  match decRemotePath ws with
  | some (rp, .num fd :: rest) => some (⟨rp, fd⟩, rest)
  | _ => none

def encReadInfo (v : ReadInfo) : List Wire :=
  [.num v.FileDescriptor, .int v.Offset, .num v.Size]

def decReadInfo : List Wire → Option (ReadInfo × List Wire)
  | .num fd :: .int o :: .num s :: rest => some (⟨fd, o, s⟩, rest)
  | _ => none

def encWriteInfo (v : WriteInfo) : List Wire :=
  .num v.FileDescriptor :: .int v.Offset :: encBytes v.Data

def decWriteInfo (ws : List Wire) : Option (WriteInfo × List Wire) :=
  match ws with
  | .num fd :: .int o :: rest =>
    match decBytes rest with
    | some (d, rest2) => some (⟨fd, o, d⟩, rest2)
    | none => none
  | _ => none

def encAttrInfo (v : AttrInfo) : List Wire :=
  encRemotePath v.RemotePath ++ [.num v.Valid, .num v.Size, .num v.Mode, .int v.ATime, .int v.MTime]

def decAttrInfo (ws : List Wire) : Option (AttrInfo × List Wire) :=
  match decRemotePath ws with
  | some (rp, .num va :: .num s :: .num m :: .int a :: .int t :: rest) =>
    some (⟨rp, va, s, m, a, t⟩, rest)
  | _ => none

def encCreateInfo (v : CreateInfo) : List Wire :=
  encRemotePath v.BaseDir ++ [.str v.Name, .bool v.IsDir]

def decCreateInfo (ws : List Wire) : Option (CreateInfo × List Wire) :=
  match decRemotePath ws with
  | some (rp, .str n :: .bool d :: rest) => some (⟨rp, n, d⟩, rest)
  | _ => none

def encRenameInfo (v : RenameInfo) : List Wire :=
  encRemotePath v.RemotePath ++ [.str v.DestPath]

def decRenameInfo (ws : List Wire) : Option (RenameInfo × List Wire) :=
  match decRemotePath ws with
  | some (rp, .str d :: rest) => some (⟨rp, d⟩, rest)
  | _ => none

def encOpenInfo (v : OpenInfo) : List Wire :=
  encRemotePath v.RemotePath ++ [.num v.FileDescriptor, .num v.Flags]

def decOpenInfo (ws : List Wire) : Option (OpenInfo × List Wire) :=
  match decRemotePath ws with
  | some (rp, .num fd :: .num f :: rest) => some (⟨rp, fd, f⟩, rest)
  | _ => none

def encCloseInfo (v : CloseInfo) : List Wire :=
  encRemotePath v.RemotePath ++ [.num v.FileDescriptor]

def decCloseInfo (ws : List Wire) : Option (CloseInfo × List Wire) :=
  match decRemotePath ws with
  | some (rp, .num fd :: rest) => some (⟨rp, fd⟩, rest)
  | _ => none

def encDirInfo (v : DirInfo) : List Wire := encStats v.Stats

def decDirInfo (ws : List Wire) : Option (DirInfo × List Wire) :=
  match decStats ws with
  | some (l, rest) => some (⟨l⟩, rest)
  | none => none

def encFileChunk (v : FileChunk) : List Wire := encBytes v.Chunk

def decFileChunk (ws : List Wire) : Option (FileChunk × List Wire) :=
  match decBytes ws with
  | some (l, rest) => some (⟨l⟩, rest)
  | none => none

def encWriteResult (v : WriteResult) : List Wire := [.num v.Size]

def decWriteResult : List Wire → Option (WriteResult × List Wire)
  | .num s :: rest => some (⟨s⟩, rest)
  | _ => none

def encError (v : Error) : List Wire := [.str v.Err]

def decError : List Wire → Option (Error × List Wire)
  | .str e :: rest => some (⟨e⟩, rest)
  | _ => none

/-- `msgpack.Marshal` on a `Payload` interface value.  A pointer and the
record it points to marshal identically. -/
def msgpackMarshal : Payload → List Wire
  | .pRemotePath v => encRemotePath v
  | .pReadDirInfo v => encReadDirInfo v
  | .pReadInfo v => encReadInfo v
  | .pWriteInfo v => encWriteInfo v
  | .pAttrInfo v => encAttrInfo v
  | .pCreateInfo v => encCreateInfo v
  | .pRenameInfo v => encRenameInfo v
  | .pOpenInfo v => encOpenInfo v
  | .pCloseInfo v => encCloseInfo v
  | .pStat v => encStat v
  | .pDirInfo v => encDirInfo v
  | .pFileChunk v => encFileChunk v
  | .pWriteResult v => encWriteResult v
  | .pError v => encError v
  | .vError v => encError v
  | .nilPayload => []

/-- The record type `Packet.Unmarshal`'s switch selects as decode target. -/
inductive RecType where
  | remotePath | readDirInfo | readInfo | writeInfo | attrInfo | createInfo
  | renameInfo | openInfo | closeInfo | stat | dirInfo | fileChunk | writeResult | error
deriving DecidableEq, Repr

/-- The decode switch of `Packet.Unmarshal`: which record type each op code's
payload decodes into; `none` for an op code with no case in the switch (the
target is then the nil interface). -/
def opRecType (op : Nat) : Option RecType :=
  if op = AttrRequest then some .remotePath
  else if op = ReadDirRequest then some .readDirInfo
  else if op = ReadDirAllRequest then some .remotePath
  else if op = FetchFileRequest then some .remotePath
  else if op = ReadFileRequest then some .readInfo
  else if op = WriteFileRequest then some .writeInfo
  else if op = SetAttrRequest then some .attrInfo
  else if op = CreateRequest then some .createInfo
  else if op = RemoveRequest then some .remotePath
  else if op = RenameRequest then some .renameInfo
  else if op = OpenRequest then some .openInfo
  else if op = CloseRequest then some .closeInfo
  else if op = StatResponse then some .stat
  else if op = StatsResponse then some .dirInfo
  else if op = FileDataResponse then some .fileChunk
  else if op = WriteResponse then some .writeResult
  else if op = ErrorResponse then some .error
  else none

/-- `msgpack.Unmarshal(payload, struc)` where `struc` is a fresh pointer of
the given record type: decode the payload prefix into that record, yielding
the pointer interface value the Go code stores into `pkt.Data`. -/
def msgpackUnmarshal (rt : RecType) (ws : List Wire) : Option Payload :=
  match rt with
  | .remotePath => (decRemotePath ws).map fun x => .pRemotePath x.1
  | .readDirInfo => (decReadDirInfo ws).map fun x => .pReadDirInfo x.1
  | .readInfo => (decReadInfo ws).map fun x => .pReadInfo x.1
  | .writeInfo => (decWriteInfo ws).map fun x => .pWriteInfo x.1
  | .attrInfo => (decAttrInfo ws).map fun x => .pAttrInfo x.1
  | .createInfo => (decCreateInfo ws).map fun x => .pCreateInfo x.1
  | .renameInfo => (decRenameInfo ws).map fun x => .pRenameInfo x.1
  | .openInfo => (decOpenInfo ws).map fun x => .pOpenInfo x.1
  | .closeInfo => (decCloseInfo ws).map fun x => .pCloseInfo x.1
  | .stat => (decStat ws).map fun x => .pStat x.1
  | .dirInfo => (decDirInfo ws).map fun x => .pDirInfo x.1
  | .fileChunk => (decFileChunk ws).map fun x => .pFileChunk x.1
  | .writeResult => (decWriteResult ws).map fun x => .pWriteResult x.1
  | .error => (decError ws).map fun x => .pError x.1

/-! ## Packet -/

structure Packet where
  ConnId : Nat
  Flags : Nat
  Id : Nat
  Op : Nat
  Data : Payload
deriving DecidableEq, Repr

/-- `Packet.IsRequest`: `flags == 0` denotes a request. -/
def Packet.IsRequest (pkt : Packet) : Bool :=
  if pkt.Flags = 0 then true else false

/-- `Packet.Marshal`: the 11-byte big-endian header (bytes 0-7 id, byte 8 op,
byte 9 conn id, byte 10 flags) followed by the msgpack payload. -/
def Packet.Marshal (pkt : Packet) : List Wire :=
  u64be pkt.Id ++ [.byte pkt.Op, .byte pkt.ConnId, .byte pkt.Flags] ++ msgpackMarshal pkt.Data

/-- `Packet.Unmarshal`: parse the 11-byte header, select the decode target by
op code, decode the payload.  A frame too short for the header indexing
panics; an op code with no switch case leaves the target nil so the payload
decode fails, and any payload decode failure is `zap.L().Fatal` — process
termination, never an error return. -/
def Packet.Unmarshal (data : List Wire) : GoResult Packet :=
  match data with
  | .byte b0 :: .byte b1 :: .byte b2 :: .byte b3 :: .byte b4 :: .byte b5 :: .byte b6 :: .byte b7 ::
      .byte op :: .byte connId :: .byte flags :: payload =>
    match opRecType op with
    | none => .fatal
    | some rt =>
      match msgpackUnmarshal rt payload with
      | none => .fatal
      | some d => .ok ⟨connId, flags, deU64be b0 b1 b2 b3 b4 b5 b6 b7, op, d⟩
  | _ => .panicked

/-- Does the payload interface value hold a pointer of the given record
type — i.e. is it a value `Packet.Unmarshal` could have produced for an op
decoding into `rt`? -/
def dataMatches (rt : RecType) : Payload → Bool
  | .pRemotePath _ => rt = .remotePath
  | .pReadDirInfo _ => rt = .readDirInfo
  | .pReadInfo _ => rt = .readInfo
  | .pWriteInfo _ => rt = .writeInfo
  | .pAttrInfo _ => rt = .attrInfo
  | .pCreateInfo _ => rt = .createInfo
  | .pRenameInfo _ => rt = .renameInfo
  | .pOpenInfo _ => rt = .openInfo
  | .pCloseInfo _ => rt = .closeInfo
  | .pStat _ => rt = .stat
  | .pDirInfo _ => rt = .dirInfo
  | .pFileChunk _ => rt = .fileChunk
  | .pWriteResult _ => rt = .writeResult
  | .pError _ => rt = .error
  | .vError _ => false
  | .nilPayload => false

/-! ## Concurrent-map model

`cmap.ConcurrentMap` (and Go's built-in maps inside `RemoteNode`) are
modelled as association lists with set-replace semantics; `mapRemove`
removes every binding of the key, so a key is absent after removal without
any uniqueness side condition. -/

def mapGet {κ α : Type} [DecidableEq κ] (m : List (κ × α)) (k : κ) : Option α :=
  match m with
  | [] => none
  | e :: rest => if e.1 = k then some e.2 else mapGet rest k

def mapSet {κ α : Type} [DecidableEq κ] (m : List (κ × α)) (k : κ) (v : α) : List (κ × α) :=
  match m with
  | [] => [(k, v)]
  | e :: rest => if e.1 = k then (k, v) :: rest else e :: mapSet rest k v

def mapRemove {κ α : Type} [DecidableEq κ] (m : List (κ × α)) (k : κ) : List (κ × α) :=
  match m with
  | [] => []
  | e :: rest => if e.1 = k then mapRemove rest k else e :: mapRemove rest k

/-! ## Talker -/

/-- `strconv.FormatInt(int64(n), 10)` on a uint64 value: ids at or above
`2^63` reinterpret as negative int64 before printing. -/
def formatInt64 (n : Nat) : String :=
  if n < 2 ^ 63 then toString n else "-" ++ toString (2 ^ 64 - n % 2 ^ 64)

/-- `GetMapKey`: the pending-table key `hostname_connId_id`. -/
def GetMapKey (hostname : String) (connId : Nat) (id : Nat) : String :=
  String.intercalate "_" [hostname, formatInt64 connId, formatInt64 id]

/-- The `(packet, response channel)` tuple travelling on an egress queue and
stored in the pending table.  A channel is identified by a numeric id; in Go
it is a fresh `chan *Packet` per `sendRequest` call. -/
structure PacketChannelTuple where
  Packet : Packet
  Channel : Nat
deriving DecidableEq, Repr

/-- The observable state of the talker relevant to response routing: the
pending table (`RequestBuffer`), the history of packets delivered on each
response channel, and the set of closed channels. -/
structure TalkerState where
  requestBuffer : List (String × PacketChannelTuple)
  delivered : List (Nat × Packet)
  closed : List Nat
deriving DecidableEq, Repr

/-- The packets delivered on channel `ch` so far, oldest first. -/
def deliveredOn (ch : Nat) (t : TalkerState) : List Packet :=
  (t.delivered.filter fun e => e.1 = ch).map fun e => e.2

/-- The loop body of `processIncomingMessages` for one already-unmarshalled
frame.  A request frame is dispatched to `processRequest` (a no-op hook).  A
response frame is looked up in the pending table under
`(hostname, conn_id, id)`; the lookup result is type-asserted without a
presence check, so a missing entry is a nil-interface assertion — a runtime
panic.  On a hit the packet is sent on the tuple's channel, the channel is
closed, and the entry is removed. -/
def processIncomingPacket (t : TalkerState) (hostname : String) (packet : Packet) :
    GoResult TalkerState :=
  if packet.IsRequest then
    .ok t
  else
    match mapGet t.requestBuffer (GetMapKey hostname packet.ConnId packet.Id) with
    | none => .panicked
    | some req =>
      .ok { requestBuffer := mapRemove t.requestBuffer (GetMapKey hostname packet.ConnId packet.Id),
            delivered := t.delivered ++ [(req.Channel, packet)],
            closed := t.closed ++ [req.Channel] }

/-- Run the ingress workers over a sequence of incoming frames (each tagged
with the hostname of the pool it arrived on).  A panic kills the process, so
nothing further is delivered. -/
def processIncomingList (t : TalkerState) : List (String × Packet) → TalkerState
  | [] => t
  | (h, p) :: rest =>
    match processIncomingPacket t h p with
    | .ok t' => processIncomingList t' rest
    | _ => t

/-- The egress-side state for one hostname: the uint64 id counter, the
pending table, and the frames written so far (as `(connection index,
stamped packet)` pairs in write order). -/
structure EgressState where
  counter : Nat
  requestBuffer : List (String × PacketChannelTuple)
  writes : List (Nat × Packet)
deriving DecidableEq, Repr

/-- One iteration of `processSendingChannel` on connection `index`: stamp the
dequeued packet with `conn_id := index` and `id := atomic.AddUint64(counter,
1)` (the new value, wrapping as a uint64), record the tuple in the pending
table under `(hostname, conn_id, id)`, then write the frame. -/
def processSendOne (hostname : String) (index : Nat) (s : EgressState)
    (req : PacketChannelTuple) : EgressState :=
  let id := (s.counter + 1) % 2 ^ 64
  let pkt := { req.Packet with ConnId := index, Id := id }
  { counter := id,
    requestBuffer := mapSet s.requestBuffer (GetMapKey hostname pkt.ConnId pkt.Id)
      { req with Packet := pkt },
    writes := s.writes ++ [(index, pkt)] }

/-- An interleaved run of the egress workers of one pool: each trace element
is a tuple dequeued by the worker of the given connection index.  The
per-hostname counter is shared; `atomic.AddUint64` linearizes the
increments. -/
def processSendList (hostname : String) (s : EgressState) :
    List (Nat × PacketChannelTuple) → EgressState
  | [] => s
  | (index, req) :: rest => processSendList hostname (processSendOne hostname index s req) rest

/-- The stamped frames an egress run emits, starting from counter value `c`. -/
def stampTrace (c : Nat) : List (Nat × PacketChannelTuple) → List (Nat × Packet)
  | [] => []
  | (index, req) :: rest =>
    (index, { req.Packet with ConnId := index, Id := (c + 1) % 2 ^ 64 }) ::
      stampTrace ((c + 1) % 2 ^ 64) rest

/-! ## Keepalive -/

/-- One ping write attempt, observed as `(hostname, connection index,
success)`. -/
structure PingEvent where
  Hostname : String
  Index : Nat
  Success : Bool
deriving DecidableEq, Repr

/-- Ping every connection of one pool: `conn.WriteMessage(PingMessage, …)`
for each connection; a write error only hits the `zap.L().Warn` branch, so
the loop continues either way. -/
def poolPingEvents (hostname : String) (n : Nat) (wfail : String → Nat → Bool) :
    List PingEvent :=
  (List.range n).map fun i => ⟨hostname, i, !wfail hostname i⟩

/-- One firing of the keepalive timer: iterate over every pool (given as
`(hostname, connection count)`) and ping every connection. -/
def tickEvents (wfail : String → Nat → Bool) : List (String × Nat) → List PingEvent
  | [] => []
  | (h, n) :: rest => poolPingEvents h n wfail ++ tickEvents wfail rest

/-- `setupPing` over a finite prefix of the 30-second tick stream; each tick
carries its own write-failure oracle.  No branch of the loop body calls
`zap.L().Fatal` or panics, so the loop survives every tick. -/
def setupPing (pools : List (String × Nat)) :
    List (String → Nat → Bool) → GoResult (List PingEvent)
  | [] => .ok []
  | wfail :: rest =>
    match setupPing pools rest with
    | .ok more => .ok (tickEvents wfail pools ++ more)
    | r => r

/-! ## RemoteNode layer

`RemoteNode` objects live behind pointers and are mutated in place, so they
are modelled by a heap: a map from numeric object ids to node records.
Child maps map names to object ids, which makes "the very same node
object" expressible. -/

structure RemoteNodeObj where
  IsDir : Bool
  RemotePath : RemotePath
  RemoteNodes : List (String × Nat)
deriving DecidableEq, Repr

structure Heap where
  nodes : List (Nat × RemoteNodeObj)
  nextId : Nat
deriving DecidableEq, Repr

def Heap.get (h : Heap) (i : Nat) : Option RemoteNodeObj :=
  mapGet h.nodes i

def Heap.set (h : Heap) (i : Nat) (o : RemoteNodeObj) : Heap :=
  ⟨mapSet h.nodes i o, h.nextId⟩

def Heap.alloc (h : Heap) (o : RemoteNodeObj) : Heap × Nat :=
  (⟨mapSet h.nodes h.nextId o, h.nextId + 1⟩, h.nextId)

/-- Every allocated object id is below `nextId`. -/
def Heap.WF (h : Heap) : Prop :=
  ∀ e ∈ h.nodes, e.1 < h.nextId

/-- Go's `path.Join` restricted to the already-clean paths the client
manipulates: join the two segments with a slash. -/
def pathJoin (a b : String) : String :=
  if a = "" then b else a ++ "/" ++ b

/-- `generateChildRemoteNode`: a fresh node for child `name`, inheriting the
parent's hostname and port, with path `path.Join(parent.Path, name)` and an
empty child map. -/
def generateChildRemoteNode (h : Heap) (rn : RemoteNodeObj) (name : String) (isDir : Bool) :
    Heap × Nat :=
  h.alloc ⟨isDir, ⟨rn.RemotePath.Hostname, rn.RemotePath.Port,
    pathJoin rn.RemotePath.Path name⟩, []⟩

/-- The loop of `Lookup`'s miss path / `ReadDirAll`: one fresh child node per
stat record, inserted into the child map in order (a later duplicate name
overwrites an earlier one, as for a Go map). -/
def populateChildren (h : Heap) (rn : RemoteNodeObj) (acc : List (String × Nat)) :
    List Stat → Heap × List (String × Nat)
  | [] => (h, acc)
  | s :: rest =>
    let (h1, cid) := generateChildRemoteNode h rn s.Name s.IsDir
    populateChildren h1 rn (mapSet acc s.Name cid) rest

/-- Result of a `Lookup` upcall. -/
inductive LookupOutcome where
  | found (nodeId : Nat)
  | enoent
deriving DecidableEq, Repr

/-- `RemoteNode.Lookup`.  `resp` is the packet `sendRequest(ReadDirAllRequest,
rn.RemotePath)` would return; it is consumed only on a child-map miss.  The
returned list records the RPCs issued, in order.  On a miss the child map is
reset to a fresh empty map, then — unless the `resp.Data.(Error)` value
assertion succeeds — the data is asserted to `*DirInfo` (panicking on
anything else) and the map repopulated from its stats; finally the lookup is
retried and `fuse.ENOENT` returned if the name is still absent. -/
def RemoteNode.Lookup (h : Heap) (rnId : Nat) (name : String) (resp : Packet) :
    GoResult (Heap × List (Nat × Payload) × LookupOutcome) :=
  match h.get rnId with
  | none => .panicked
  | some rn =>
    match mapGet rn.RemoteNodes name with
    | some childId => .ok (h, [], .found childId)
    | none =>
      let reqs := [(ReadDirAllRequest, Payload.pRemotePath rn.RemotePath)]
      match resp.Data.asValError with
      | some _ =>
        .ok (h.set rnId { rn with RemoteNodes := [] }, reqs, .enoent)
      | none =>
        match resp.Data.asPtrDirInfo with
        | none => .panicked
        | some di =>
          let (h2, children) := populateChildren h rn [] di.Stats
          let h3 := h2.set rnId { rn with RemoteNodes := children }
          match mapGet children name with
          | some childId => .ok (h3, reqs, .found childId)
          | none => .ok (h3, reqs, .enoent)

/-- `RemoteNode.Create`.  `FileHandler.Create` is an external collaborator
here; its outcome (a local descriptor or an error) is the `fhResult`
parameter.  On success a fresh child node is generated and inserted into the
parent's child map; the new node's id and the descriptor are returned. -/
def RemoteNode.Create (h : Heap) (rnId : Nat) (name : String) (fhResult : Except Error Nat) :
    GoResult (Heap × Option (Nat × Nat) × Option Error) :=
  match h.get rnId with
  | none => .panicked
  | some rn =>
    match fhResult with
    | .ok fd =>
      let (h1, newId) := generateChildRemoteNode h rn name false
      .ok (h1.set rnId { rn with RemoteNodes := mapSet rn.RemoteNodes name newId },
        some (newId, fd), none)
    | .error e => .ok (h, none, some e)

/-- `RemoteNode.Mkdir`: like `Create` with a directory child and no
descriptor. -/
def RemoteNode.Mkdir (h : Heap) (rnId : Nat) (name : String) (fhErr : Option Error) :
    GoResult (Heap × Option Nat × Option Error) :=
  match h.get rnId with
  | none => .panicked
  | some rn =>
    match fhErr with
    | none =>
      let (h1, newId) := generateChildRemoteNode h rn name true
      .ok (h1.set rnId { rn with RemoteNodes := mapSet rn.RemoteNodes name newId },
        some newId, none)
    | some e => .ok (h, none, some e)

/-- `RemoteNode.Remove`: on `FileHandler.Remove` success, delete the name
from the child map. -/
def RemoteNode.Remove (h : Heap) (rnId : Nat) (name : String) (fhErr : Option Error) :
    GoResult (Heap × Option Error) :=
  match h.get rnId with
  | none => .panicked
  | some rn =>
    match fhErr with
    | none => .ok (h.set rnId { rn with RemoteNodes := mapRemove rn.RemoteNodes name }, none)
    | some e => .ok (h, some e)

/-- `RemoteNode.Rename` from directory `rnId`, name `oldName`, to directory
`destId`, name `newName`.  The moved child is looked up without a presence
check (`curRn := rn.RemoteNodes[oldName]`), so a missing source child makes
`FileHandler.Rename(curRn.RemotePath, …)` dereference nil.  On success the
child's `RemotePath.Path` is rewritten to `path.Join(dest.Path, newName)`,
the old binding deleted, and the child bound under `newName` in the
destination.  Each mutation re-reads the current object, which models Go's
in-place pointer mutation faithfully when source and destination alias. -/
def RemoteNode.Rename (h : Heap) (rnId destId : Nat) (oldName newName : String)
    (fhErr : Option Error) : GoResult (Heap × Option Error) :=
  match h.get rnId, h.get destId with
  | some rn, some destDir =>
    match mapGet rn.RemoteNodes oldName with
    | none => .panicked
    | some curId =>
      match h.get curId with
      | none => .panicked
      | some curRn =>
        let destPath := pathJoin destDir.RemotePath.Path newName
        match fhErr with
        | some e => .ok (h, some e)
        | none =>
          let h1 := h.set curId
            { curRn with RemotePath := { curRn.RemotePath with Path := destPath } }
          let h2 := match h1.get rnId with
            | some rn1 => h1.set rnId { rn1 with RemoteNodes := mapRemove rn1.RemoteNodes oldName }
            | none => h1
          let h3 := match h2.get destId with
            | some dd => h2.set destId { dd with RemoteNodes := mapSet dd.RemoteNodes newName curId }
            | none => h2
          .ok (h3, none)
  | _, _ => .panicked

/-- The attr fields `RemoteNode.Attr` fills from a `Stat` (uid and gid are
synthesized from the local user, passed in here; size converts int64 to
uint64). -/
structure FuseAttr where
  Uid : Nat
  Gid : Nat
  Size : Nat
  Mode : Nat
  Mtime : Int
deriving DecidableEq, Repr

/-- `RemoteNode.Attr`.  `resp` is the packet returned by
`sendRequest(AttrRequest, rn.RemotePath)`.  The code first runs the value
type assertion `resp.Data.(Error)`; only if it fails does it assert
`resp.Data.(*Stat)` (without the two-result form, so a mismatch panics) and
fill the attr record. -/
def RemoteNode.Attr (resp : Packet) (uid gid : Nat) :
    GoResult (Option FuseAttr × Option Error) :=
  match resp.Data.asValError with
  | some respErr => .ok (none, some respErr)
  | none =>
    match resp.Data.asPtrStat with
    | none => .panicked
    | some s =>
      .ok (some ⟨uid, gid, (s.Size % (2 ^ 64 : Int)).toNat, s.Mode, s.ModTime⟩, none)

/-! ## Codec lemmas -/

theorem decRemotePath_enc (v : RemotePath) (rest : List Wire) :
    decRemotePath (encRemotePath v ++ rest) = some (v, rest) := rfl

theorem decStat_enc (v : Stat) (rest : List Wire) :
    decStat (encStat v ++ rest) = some (v, rest) := rfl

theorem decStatsAux_enc (l : List Stat) (rest : List Wire) :
    decStatsAux l.length (encStatList l ++ rest) = some (l, rest) := by
  induction l with
  | nil => rfl
  | cons s l ih =>
    simp only [encStatList, List.length_cons, List.append_assoc, decStatsAux, decStat_enc, ih]

theorem decStats_enc (l : List Stat) (rest : List Wire) :
    decStats (encStats l ++ rest) = some (l, rest) := by
  simp only [encStats, decStats, List.cons_append, decStatsAux_enc]

theorem decBytesAux_enc (l : List Nat) (rest : List Wire) :
    decBytesAux l.length (encByteList l ++ rest) = some (l, rest) := by
  induction l with
  | nil => rfl
  | cons b l ih =>
    simp only [encByteList, List.length_cons, List.cons_append, decBytesAux, ih]

theorem decBytes_enc (l : List Nat) (rest : List Wire) :
    decBytes (encBytes l ++ rest) = some (l, rest) := by
  simp only [encBytes, decBytes, List.cons_append, decBytesAux_enc]

theorem decReadDirInfo_enc (v : ReadDirInfo) (rest : List Wire) :
    decReadDirInfo (encReadDirInfo v ++ rest) = some (v, rest) := rfl

theorem decReadInfo_enc (v : ReadInfo) (rest : List Wire) :
    decReadInfo (encReadInfo v ++ rest) = some (v, rest) := rfl

theorem decWriteInfo_enc (v : WriteInfo) (rest : List Wire) :
    decWriteInfo (encWriteInfo v ++ rest) = some (v, rest) := by
  simp only [encWriteInfo, decWriteInfo, List.cons_append, decBytes_enc]

theorem decAttrInfo_enc (v : AttrInfo) (rest : List Wire) :
    decAttrInfo (encAttrInfo v ++ rest) = some (v, rest) := rfl

theorem decCreateInfo_enc (v : CreateInfo) (rest : List Wire) :
    decCreateInfo (encCreateInfo v ++ rest) = some (v, rest) := rfl

theorem decRenameInfo_enc (v : RenameInfo) (rest : List Wire) :
    decRenameInfo (encRenameInfo v ++ rest) = some (v, rest) := rfl

theorem decOpenInfo_enc (v : OpenInfo) (rest : List Wire) :
    decOpenInfo (encOpenInfo v ++ rest) = some (v, rest) := rfl

theorem decCloseInfo_enc (v : CloseInfo) (rest : List Wire) :
    decCloseInfo (encCloseInfo v ++ rest) = some (v, rest) := rfl

theorem decDirInfo_enc (v : DirInfo) (rest : List Wire) :
    decDirInfo (encDirInfo v ++ rest) = some (v, rest) := by
  simp only [encDirInfo, decDirInfo, decStats_enc]

theorem decFileChunk_enc (v : FileChunk) (rest : List Wire) :
    decFileChunk (encFileChunk v ++ rest) = some (v, rest) := by
  simp only [encFileChunk, decFileChunk, decBytes_enc]

theorem decWriteResult_enc (v : WriteResult) (rest : List Wire) :
    decWriteResult (encWriteResult v ++ rest) = some (v, rest) := rfl

theorem decError_enc (v : Error) (rest : List Wire) :
    decError (encError v ++ rest) = some (v, rest) := rfl

/-- The opaque record codec inverts: decoding into the record type a payload
value actually holds recovers that value. -/
theorem msgpack_roundtrip (rt : RecType) (d : Payload) (hd : dataMatches rt d = true) :
    msgpackUnmarshal rt (msgpackMarshal d) = some d := by
  cases d <;> cases rt <;>
    first
    | exact Bool.noConfusion hd
    | (rename_i v
       simp only [msgpackMarshal, msgpackUnmarshal]
       first
    | (have h2 := decRemotePath_enc v []; rw [List.append_nil] at h2; rw [h2]; rfl)
    | (have h2 := decReadDirInfo_enc v []; rw [List.append_nil] at h2; rw [h2]; rfl)
    | (have h2 := decReadInfo_enc v []; rw [List.append_nil] at h2; rw [h2]; rfl)
    | (have h2 := decWriteInfo_enc v []; rw [List.append_nil] at h2; rw [h2]; rfl)
    | (have h2 := decAttrInfo_enc v []; rw [List.append_nil] at h2; rw [h2]; rfl)
    | (have h2 := decCreateInfo_enc v []; rw [List.append_nil] at h2; rw [h2]; rfl)
    | (have h2 := decRenameInfo_enc v []; rw [List.append_nil] at h2; rw [h2]; rfl)
    | (have h2 := decOpenInfo_enc v []; rw [List.append_nil] at h2; rw [h2]; rfl)
    | (have h2 := decCloseInfo_enc v []; rw [List.append_nil] at h2; rw [h2]; rfl)
    | (have h2 := decStat_enc v []; rw [List.append_nil] at h2; rw [h2]; rfl)
    | (have h2 := decDirInfo_enc v []; rw [List.append_nil] at h2; rw [h2]; rfl)
    | (have h2 := decFileChunk_enc v []; rw [List.append_nil] at h2; rw [h2]; rfl)
    | (have h2 := decWriteResult_enc v []; rw [List.append_nil] at h2; rw [h2]; rfl)
    | (have h2 := decError_enc v []; rw [List.append_nil] at h2; rw [h2]; rfl))

/-- C4: for every packet whose op code has a defined payload variant and
whose data holds a record of the variant the decode switch selects,
`Packet.Unmarshal` applied to the bytes produced by `Packet.Marshal`
reconstructs the packet: the same `Id`, `Op`, `ConnId` and `Flags` from the
11-byte big-endian header, and an equal `Data` record. -/
theorem C4_marshal_unmarshal_roundtrip (p : Packet) (rt : RecType)
    (hid : p.Id < 2 ^ 64) (hop : p.Op < 256) (hconn : p.ConnId < 256) (hfl : p.Flags < 256)
    (hrt : opRecType p.Op = some rt) (hd : dataMatches rt p.Data = true) :
    Packet.Unmarshal (Packet.Marshal p) = .ok p := by
  obtain ⟨connId, flags, id, op, data⟩ := p
  simp only [Packet.Marshal, u64be, List.cons_append, List.nil_append] at *
  simp only [Packet.Unmarshal]
  rw [hrt]
  simp only [msgpack_roundtrip rt data hd]
  simp only [GoResult.ok.injEq, Packet.mk.injEq, deU64be, and_true, true_and]
  omega

/-- C9: `Packet.Unmarshal` never returns an error value: on a header-complete
frame it either succeeds or terminates the process.  An op code with no case
in the decode switch leaves the decode target nil, so the payload decode
fails and the worker hits `zap.L().Fatal`; the same holds for any payload
that does not decode as the selected record type.  When the op is in the
switch and the payload decodes, the packet is reconstructed from the
big-endian header and decoded payload. -/
theorem C9_unmarshal_no_error_return (b0 b1 b2 b3 b4 b5 b6 b7 op connId flags : Nat)
    (payload : List Wire) :
    (opRecType op = none →
      Packet.Unmarshal (.byte b0 :: .byte b1 :: .byte b2 :: .byte b3 :: .byte b4 :: .byte b5 ::
        .byte b6 :: .byte b7 :: .byte op :: .byte connId :: .byte flags :: payload) = .fatal) ∧
    (∀ rt, opRecType op = some rt → msgpackUnmarshal rt payload = none →
      Packet.Unmarshal (.byte b0 :: .byte b1 :: .byte b2 :: .byte b3 :: .byte b4 :: .byte b5 ::
        .byte b6 :: .byte b7 :: .byte op :: .byte connId :: .byte flags :: payload) = .fatal) ∧
    (∀ rt d, opRecType op = some rt → msgpackUnmarshal rt payload = some d →
      Packet.Unmarshal (.byte b0 :: .byte b1 :: .byte b2 :: .byte b3 :: .byte b4 :: .byte b5 ::
        .byte b6 :: .byte b7 :: .byte op :: .byte connId :: .byte flags :: payload) =
        .ok ⟨connId, flags, deU64be b0 b1 b2 b3 b4 b5 b6 b7, op, d⟩) := by
  refine ⟨fun h => ?_, fun rt h hm => ?_, fun rt d h hm => ?_⟩
  · simp only [Packet.Unmarshal, h]
  · simp only [Packet.Unmarshal, h, hm]
  · simp only [Packet.Unmarshal, h, hm]

/-- Witness for C9: an op code outside the decode switch (99) is fatal, and a
well-formed error-response frame decodes to the error record. -/
theorem C9_unmarshal_no_error_return_witness :
    Packet.Unmarshal (.byte 0 :: .byte 0 :: .byte 0 :: .byte 0 :: .byte 0 :: .byte 0 ::
      .byte 0 :: .byte 5 :: .byte 99 :: .byte 2 :: .byte 1 :: [.str "boom"]) = .fatal ∧
    Packet.Unmarshal (.byte 0 :: .byte 0 :: .byte 0 :: .byte 0 :: .byte 0 :: .byte 0 ::
      .byte 0 :: .byte 5 :: .byte 16 :: .byte 2 :: .byte 1 :: [.str "boom"]) =
      .ok ⟨2, 1, 5, 16, .pError ⟨"boom"⟩⟩ := by
  constructor
  · exact (C9_unmarshal_no_error_return 0 0 0 0 0 0 0 5 99 2 1 [.str "boom"]).1 rfl
  · exact (C9_unmarshal_no_error_return 0 0 0 0 0 0 0 5 16 2 1 [.str "boom"]).2.2
      .error (.pError ⟨"boom"⟩) rfl rfl

/-- Witness for C4: a concrete stat-response packet round-trips. -/
theorem C4_marshal_unmarshal_roundtrip_witness :
    (77 : Nat) < 2 ^ 64 ∧ opRecType 10 = some RecType.stat ∧
    dataMatches RecType.stat (.pStat ⟨"file.txt", false, 420, 42, 1000000⟩) = true ∧
    Packet.Unmarshal (Packet.Marshal ⟨3, 1, 77, 10, .pStat ⟨"file.txt", false, 420, 42, 1000000⟩⟩) =
      .ok ⟨3, 1, 77, 10, .pStat ⟨"file.txt", false, 420, 42, 1000000⟩⟩ :=
  ⟨by decide, rfl, rfl,
    C4_marshal_unmarshal_roundtrip ⟨3, 1, 77, 10, .pStat ⟨"file.txt", false, 420, 42, 1000000⟩⟩
      RecType.stat (by decide) (by decide) (by decide) (by decide) rfl rfl⟩

/-- C2: evaluation of the code at the failing input.  An error-response frame
decodes to a `*Error` payload (`pError`), exactly what the ingress worker
hands back through the response channel; `RemoteNode.Attr` on such a packet
does not return the error — its `resp.Data.(Error)` value assertion fails on
the pointer, so the success branch runs and `resp.Data.(*Stat)` panics. -/
theorem C2_attr_error_record_panics :
    Packet.Unmarshal (Packet.Marshal ⟨0, 1, 7, ErrorResponse, .pError ⟨"agent failure"⟩⟩) =
      .ok ⟨0, 1, 7, ErrorResponse, .pError ⟨"agent failure"⟩⟩ ∧
    RemoteNode.Attr ⟨0, 1, 7, ErrorResponse, .pError ⟨"agent failure"⟩⟩ 501 20 = .panicked :=
  ⟨rfl, rfl⟩

/-- C10: a response frame whose `(hostname, conn_id, id)` key has no pending
entry makes the ingress worker panic on the nil type assertion instead of
discarding the frame. -/
theorem C10_missing_pending_entry_panics (t : TalkerState) (hostname : String) (pkt : Packet)
    (hresp : pkt.IsRequest = false)
    (hnone : mapGet t.requestBuffer (GetMapKey hostname pkt.ConnId pkt.Id) = none) :
    processIncomingPacket t hostname pkt = .panicked := by
  simp [processIncomingPacket, hresp, hnone]

/-- Witness for C10: an unsolicited error response against an empty pending
table panics. -/
theorem C10_missing_pending_entry_panics_witness :
    processIncomingPacket ⟨[], [], []⟩ "h1" ⟨0, 1, 1, ErrorResponse, .pError ⟨"x"⟩⟩ = .panicked :=
  C10_missing_pending_entry_panics ⟨[], [], []⟩ "h1" ⟨0, 1, 1, ErrorResponse, .pError ⟨"x"⟩⟩
    rfl rfl

/-! ## Association-map lemmas -/

theorem mapGet_mapSet {κ α : Type} [DecidableEq κ] (m : List (κ × α)) (k k' : κ) (v : α) :
    mapGet (mapSet m k v) k' = if k = k' then some v else mapGet m k' := by
  induction m with
  | nil =>
    simp only [mapSet, mapGet]
  | cons e rest ih =>
    by_cases he : e.1 = k
    · simp only [mapSet, he, if_pos, mapGet, ih]
      by_cases hk : k = k' <;> simp [hk, he]
    · simp only [mapSet, he, if_neg, not_false_iff, mapGet, ih]
      by_cases hk : k = k' <;> by_cases he' : e.1 = k' <;> simp_all

theorem mapGet_mapRemove_self {κ α : Type} [DecidableEq κ] (m : List (κ × α)) (k : κ) :
    mapGet (mapRemove m k) k = none := by
  induction m with
  | nil => rfl
  | cons e rest ih =>
    by_cases he : e.1 = k <;> simp [mapRemove, mapGet, he, ih]

theorem mapGet_mem {κ α : Type} [DecidableEq κ] {m : List (κ × α)} {k : κ} {v : α}
    (h : mapGet m k = some v) : (k, v) ∈ m := by
  induction m with
  | nil => simp [mapGet] at h
  | cons e rest ih =>
    obtain ⟨e1, e2⟩ := e
    by_cases he : e1 = k
    · subst he
      simp only [mapGet, if_pos, Option.some.injEq] at h
      subst h
      exact List.mem_cons_self _ _
    · simp only [mapGet, he, if_neg, not_false_iff] at h
      exact List.mem_cons_of_mem _ (ih h)

theorem mem_mapRemove {κ α : Type} [DecidableEq κ] {m : List (κ × α)} {k : κ} {e : κ × α}
    (h : e ∈ mapRemove m k) : e ∈ m ∧ e.1 ≠ k := by
  induction m with
  | nil => simp [mapRemove] at h
  | cons x rest ih =>
    by_cases hx : x.1 = k
    · simp only [mapRemove, hx, if_pos] at h
      exact ⟨List.mem_cons_of_mem _ (ih h).1, (ih h).2⟩
    · simp only [mapRemove, hx, if_neg, not_false_iff, List.mem_cons] at h
      rcases h with h | h
      · subst h; exact ⟨List.mem_cons_self _ _, hx⟩
      · exact ⟨List.mem_cons_of_mem _ (ih h).1, (ih h).2⟩

/-! ## C1: response routing -/

/-- If no pending entry references channel `ch`, then no run of the ingress
workers ever delivers on `ch` (the pending table only shrinks on the ingress
side, and delivery happens only through a pending entry). -/
theorem deliveredOn_stable_of_channel_absent (ch : Nat) (msgs : List (String × Packet)) :
    ∀ t : TalkerState, (∀ e ∈ t.requestBuffer, e.2.Channel ≠ ch) →
      deliveredOn ch (processIncomingList t msgs) = deliveredOn ch t := by
  induction msgs with
  | nil => intro t _; rfl
  | cons m rest ih =>
    intro t ht
    obtain ⟨hn, p⟩ := m
    by_cases hr : p.IsRequest = true
    · simpa [processIncomingList, processIncomingPacket, hr] using ih t ht
    · have hr' : p.IsRequest = false := by simpa using hr
      cases hget : mapGet t.requestBuffer (GetMapKey hn p.ConnId p.Id) with
      | none => simp [processIncomingList, processIncomingPacket, hr', hget]
      | some req =>
        have hne : req.Channel ≠ ch := ht _ (mapGet_mem hget)
        have hbuf : ∀ e ∈ mapRemove t.requestBuffer (GetMapKey hn p.ConnId p.Id),
            e.2.Channel ≠ ch := fun e he => ht e (mem_mapRemove he).1
        simp only [processIncomingList, processIncomingPacket, hr', Bool.false_eq_true,
          if_false, hget]
        rw [ih _ hbuf]
        simp [deliveredOn, List.filter_append, hne]

/-- C1: a response frame whose key is pending delivers exactly one packet on
the request's channel, the channel is closed, the pending entry is removed,
and no later ingress activity ever delivers on that channel again. -/
theorem C1_response_routing (t : TalkerState) (hostname : String) (pkt : Packet)
    (tup : PacketChannelTuple)
    (hresp : pkt.IsRequest = false)
    (hget : mapGet t.requestBuffer (GetMapKey hostname pkt.ConnId pkt.Id) = some tup)
    (huniq : ∀ e ∈ t.requestBuffer, e.2.Channel = tup.Channel →
      e.1 = GetMapKey hostname pkt.ConnId pkt.Id)
    (hfresh : deliveredOn tup.Channel t = []) :
    processIncomingPacket t hostname pkt = .ok (processIncomingList t [(hostname, pkt)]) ∧
    tup.Channel ∈ (processIncomingList t [(hostname, pkt)]).closed ∧
    mapGet (processIncomingList t [(hostname, pkt)]).requestBuffer
      (GetMapKey hostname pkt.ConnId pkt.Id) = none ∧
    ∀ msgs, deliveredOn tup.Channel (processIncomingList t ((hostname, pkt) :: msgs)) = [pkt] := by
  have hstep : processIncomingList t [(hostname, pkt)] =
      ⟨mapRemove t.requestBuffer (GetMapKey hostname pkt.ConnId pkt.Id),
        t.delivered ++ [(tup.Channel, pkt)], t.closed ++ [tup.Channel]⟩ := by
    simp [processIncomingList, processIncomingPacket, hresp, hget]
  have habsent : ∀ e ∈ mapRemove t.requestBuffer (GetMapKey hostname pkt.ConnId pkt.Id),
      e.2.Channel ≠ tup.Channel := by
    intro e he hch
    exact (mem_mapRemove he).2 (huniq e (mem_mapRemove he).1 hch)
  have hdel : deliveredOn tup.Channel
      (⟨mapRemove t.requestBuffer (GetMapKey hostname pkt.ConnId pkt.Id),
        t.delivered ++ [(tup.Channel, pkt)], t.closed ++ [tup.Channel]⟩ : TalkerState) = [pkt] := by
    simp only [deliveredOn] at hfresh ⊢
    simp [List.filter_append, hfresh]
  refine ⟨?_, ?_, ?_, ?_⟩
  · simp [hstep, processIncomingPacket, hresp, hget]
  · simp [hstep]
  · simp [hstep, mapGet_mapRemove_self]
  · intro msgs
    have : processIncomingList t ((hostname, pkt) :: msgs) =
        processIncomingList (processIncomingList t [(hostname, pkt)]) msgs := by
      simp only [processIncomingList, processIncomingPacket, hresp, hget, Bool.false_eq_true,
        if_false]
    rw [this, hstep, deliveredOn_stable_of_channel_absent tup.Channel msgs _ habsent, hdel]

/-- Witness for C1: one pending entry, one matching response. -/
theorem C1_response_routing_witness :
    processIncomingPacket ⟨[("h1_0_1", ⟨⟨0, 0, 0, 0, .nilPayload⟩, 5⟩)], [], []⟩ "h1"
        ⟨0, 1, 1, ErrorResponse, .pError ⟨"e"⟩⟩ =
      .ok (processIncomingList ⟨[("h1_0_1", ⟨⟨0, 0, 0, 0, .nilPayload⟩, 5⟩)], [], []⟩
        [("h1", ⟨0, 1, 1, ErrorResponse, .pError ⟨"e"⟩⟩)]) ∧
    deliveredOn 5 (processIncomingList ⟨[("h1_0_1", ⟨⟨0, 0, 0, 0, .nilPayload⟩, 5⟩)], [], []⟩
        [("h1", ⟨0, 1, 1, ErrorResponse, .pError ⟨"e"⟩⟩)]) =
      [⟨0, 1, 1, ErrorResponse, .pError ⟨"e"⟩⟩] := by
  have h := C1_response_routing ⟨[("h1_0_1", ⟨⟨0, 0, 0, 0, .nilPayload⟩, 5⟩)], [], []⟩ "h1"
    ⟨0, 1, 1, ErrorResponse, .pError ⟨"e"⟩⟩ ⟨⟨0, 0, 0, 0, .nilPayload⟩, 5⟩ rfl (by decide)
    (by decide) rfl
  exact ⟨h.1, h.2.2.2 []⟩

/-! ## C3: id stamping and uniqueness -/

theorem stampTrace_length (c : Nat) (tr : List (Nat × PacketChannelTuple)) :
    (stampTrace c tr).length = tr.length := by
  induction tr generalizing c with
  | nil => rfl
  | cons x rest ih =>
    obtain ⟨index, req⟩ := x
    simp [stampTrace, ih]

theorem processSendList_writes (hostname : String) (tr : List (Nat × PacketChannelTuple)) :
    ∀ s : EgressState,
      (processSendList hostname s tr).writes = s.writes ++ stampTrace s.counter tr := by
  induction tr with
  | nil =>
    intro s
    simp [processSendList, stampTrace]
  | cons x rest ih =>
    intro s
    obtain ⟨index, req⟩ := x
    simp only [processSendList, stampTrace]
    rw [ih]
    simp [processSendOne, List.append_assoc]

theorem stampTrace_getElem (c : Nat) (tr : List (Nat × PacketChannelTuple)) :
    ∀ (i idx : Nat) (req : PacketChannelTuple), tr[i]? = some (idx, req) →
      (stampTrace c tr)[i]? =
        some (idx, { req.Packet with ConnId := idx, Id := (c + i + 1) % 2 ^ 64 }) := by
  induction tr generalizing c with
  | nil => intro i idx req h; simp at h
  | cons x rest ih =>
    intro i idx req h
    obtain ⟨index, r⟩ := x
    cases i with
    | zero =>
      simp only [List.getElem?_cons_zero, Option.some.injEq, Prod.mk.injEq] at h
      obtain ⟨h1, h2⟩ := h
      subst h1; subst h2
      simp [stampTrace]
    | succ n =>
      simp only [List.getElem?_cons_succ] at h
      simp only [stampTrace, List.getElem?_cons_succ]
      rw [ih ((c + 1) % 2 ^ 64) n idx req h]
      have heq : ((c + 1) % 2 ^ 64 + n + 1) % 2 ^ 64 = (c + (n + 1) + 1) % 2 ^ 64 := by omega
      rw [heq]

theorem mapGet_isSome_processSendList (hostname : String) (tr : List (Nat × PacketChannelTuple)) :
    ∀ (s : EgressState) (k : String), (mapGet s.requestBuffer k).isSome = true →
      (mapGet (processSendList hostname s tr).requestBuffer k).isSome = true := by
  induction tr with
  | nil => intro s k h; exact h
  | cons x rest ih =>
    intro s k h
    obtain ⟨index, req⟩ := x
    simp only [processSendList]
    apply ih
    simp only [processSendOne]
    rw [mapGet_mapSet]
    split
    · rfl
    · exact h

theorem stamped_key_in_buffer (hostname : String) (tr : List (Nat × PacketChannelTuple)) :
    ∀ (s : EgressState) (i idx : Nat) (pkt : Packet),
      (stampTrace s.counter tr)[i]? = some (idx, pkt) →
      (mapGet (processSendList hostname s tr).requestBuffer
        (GetMapKey hostname pkt.ConnId pkt.Id)).isSome = true := by
  induction tr with
  | nil => intro s i idx pkt h; simp [stampTrace] at h
  | cons x rest ih =>
    intro s i idx pkt h
    obtain ⟨index, req⟩ := x
    cases i with
    | zero =>
      simp only [stampTrace, List.getElem?_cons_zero, Option.some.injEq, Prod.mk.injEq] at h
      obtain ⟨h1, h2⟩ := h
      subst h1
      subst h2
      simp only [processSendList]
      apply mapGet_isSome_processSendList
      simp only [processSendOne]
      rw [mapGet_mapSet]
      simp
    | succ n =>
      simp only [stampTrace, List.getElem?_cons_succ] at h
      simp only [processSendList]
      exact ih (processSendOne hostname index s req) n idx pkt (by simpa [processSendOne] using h)

/-- Counterexample to C3 as stated: the id counter is a uint64 and
`atomic.AddUint64` wraps, so after `2^64 + 1` submissions on connection 0 of
a fresh pool the first and the last outstanding request carry the same
`(conn_id, id) = (0, 1)`; ids are not unique for an unbounded process
lifetime. -/
theorem C3_counterexample :
    ((processSendList "h1" ⟨0, [], []⟩
        (List.replicate (2 ^ 64 + 1)
          ((0 : Nat), (⟨⟨0, 0, 0, 0, .nilPayload⟩, 0⟩ : PacketChannelTuple)))).writes)[0]? =
      some (0, ⟨0, 0, 1, 0, .nilPayload⟩) ∧
    ((processSendList "h1" ⟨0, [], []⟩
        (List.replicate (2 ^ 64 + 1)
          ((0 : Nat), (⟨⟨0, 0, 0, 0, .nilPayload⟩, 0⟩ : PacketChannelTuple)))).writes)[2 ^ 64]? =
      some (0, ⟨0, 0, 1, 0, .nilPayload⟩) := by
  have hw := processSendList_writes "h1"
    (List.replicate (2 ^ 64 + 1)
      ((0 : Nat), (⟨⟨0, 0, 0, 0, .nilPayload⟩, 0⟩ : PacketChannelTuple))) ⟨0, [], []⟩
  constructor
  · rw [hw]
    have h0 : (List.replicate (2 ^ 64 + 1)
        ((0 : Nat), (⟨⟨0, 0, 0, 0, .nilPayload⟩, 0⟩ : PacketChannelTuple)))[0]? =
        some (0, ⟨⟨0, 0, 0, 0, .nilPayload⟩, 0⟩) := by
      rw [List.getElem?_replicate, if_pos (by norm_num)]
    rw [List.nil_append, stampTrace_getElem 0 _ 0 0 _ h0]
    decide
  · rw [hw]
    have h1 : (List.replicate (2 ^ 64 + 1)
        ((0 : Nat), (⟨⟨0, 0, 0, 0, .nilPayload⟩, 0⟩ : PacketChannelTuple)))[2 ^ 64]? =
        some (0, ⟨⟨0, 0, 0, 0, .nilPayload⟩, 0⟩) := by
      rw [List.getElem?_replicate, if_pos (by norm_num)]
    rw [List.nil_append, stampTrace_getElem 0 _ (2 ^ 64) 0 _ h1]
    decide

/-- C3 amended: starting from a fresh counter, the egress workers stamp every
dequeued packet with `conn_id := index` and a fresh wrapped-uint64 id, record
it in the pending table under `(hostname, conn_id, id)`, and as long as at
most `2^64` requests have been submitted on the pool the ids — hence the
`(conn_id, id)` pairs — are unique per hostname. -/
theorem C3_conn_id_uniqueness (hostname : String) (tr : List (Nat × PacketChannelTuple))
    (hlen : tr.length ≤ 2 ^ 64) (i j idxi idxj : Nat) (pki pkj : Packet)
    (hij : i ≠ j)
    (hi : (processSendList hostname ⟨0, [], []⟩ tr).writes[i]? = some (idxi, pki))
    (hj : (processSendList hostname ⟨0, [], []⟩ tr).writes[j]? = some (idxj, pkj)) :
    pki.ConnId = idxi ∧ pkj.ConnId = idxj ∧ pki.Id ≠ pkj.Id ∧
    (mapGet (processSendList hostname ⟨0, [], []⟩ tr).requestBuffer
      (GetMapKey hostname pki.ConnId pki.Id)).isSome = true := by
  have hw := processSendList_writes hostname tr ⟨0, [], []⟩
  simp only [hw, List.nil_append] at hi hj
  have hbuf := stamped_key_in_buffer hostname tr ⟨0, [], []⟩ i idxi pki hi
  have hlen_i : i < tr.length := by
    have h1 := (List.getElem?_eq_some.mp hi).1
    rwa [stampTrace_length] at h1
  have hlen_j : j < tr.length := by
    have h1 := (List.getElem?_eq_some.mp hj).1
    rwa [stampTrace_length] at h1
  obtain ⟨⟨idx1, req1⟩, hti⟩ : ∃ x, tr[i]? = some x :=
    ⟨tr.get ⟨i, hlen_i⟩, List.getElem?_eq_getElem hlen_i⟩
  obtain ⟨⟨idx2, req2⟩, htj⟩ : ∃ x, tr[j]? = some x :=
    ⟨tr.get ⟨j, hlen_j⟩, List.getElem?_eq_getElem hlen_j⟩
  rw [stampTrace_getElem 0 tr i idx1 req1 hti] at hi
  rw [stampTrace_getElem 0 tr j idx2 req2 htj] at hj
  simp only [Option.some.injEq, Prod.mk.injEq] at hi hj
  obtain ⟨hi1, hi2⟩ := hi
  obtain ⟨hj1, hj2⟩ := hj
  subst hi1; subst hj1
  subst hi2; subst hj2
  have hi64 : i < 2 ^ 64 := lt_of_lt_of_le hlen_i hlen
  have hj64 : j < 2 ^ 64 := lt_of_lt_of_le hlen_j hlen
  have hne : (0 + i + 1) % 2 ^ 64 ≠ (0 + j + 1) % 2 ^ 64 := by omega
  exact ⟨rfl, rfl, hne, hbuf⟩

/-- Witness for the amended C3: two submissions on connections 0 and 1 of
pool `h1` get distinct ids 1 and 2, both recorded in the pending table. -/
theorem C3_conn_id_uniqueness_witness :
    ((processSendList "h1" ⟨0, [], []⟩
      [(0, ⟨⟨0, 0, 0, 0, .nilPayload⟩, 3⟩), (1, ⟨⟨0, 0, 0, 0, .nilPayload⟩, 4⟩)]).writes)[0]? =
      some (0, ⟨0, 0, 1, 0, .nilPayload⟩) ∧
    ((processSendList "h1" ⟨0, [], []⟩
      [(0, ⟨⟨0, 0, 0, 0, .nilPayload⟩, 3⟩), (1, ⟨⟨0, 0, 0, 0, .nilPayload⟩, 4⟩)]).writes)[1]? =
      some (1, ⟨1, 0, 2, 0, .nilPayload⟩) ∧
    (0 : Nat) ≠ 1 ∧ (1 : Nat) ≠ 2 ∧
    (mapGet (processSendList "h1" ⟨0, [], []⟩
      [(0, ⟨⟨0, 0, 0, 0, .nilPayload⟩, 3⟩), (1, ⟨⟨0, 0, 0, 0, .nilPayload⟩, 4⟩)]).requestBuffer
      (GetMapKey "h1" 0 1)).isSome = true := by
  have h := C3_conn_id_uniqueness "h1"
    [(0, ⟨⟨0, 0, 0, 0, .nilPayload⟩, 3⟩), (1, ⟨⟨0, 0, 0, 0, .nilPayload⟩, 4⟩)]
    (by norm_num) 0 1 0 1 ⟨0, 0, 1, 0, .nilPayload⟩ ⟨1, 0, 2, 0, .nilPayload⟩
    (by decide) (by decide) (by decide)
  exact ⟨by decide, by decide, by decide, h.2.2.1, h.2.2.2⟩

/-! ## Heap lemmas -/

theorem mapGet_mapRemove {κ α : Type} [DecidableEq κ] (m : List (κ × α)) (k k' : κ) :
    mapGet (mapRemove m k) k' = if k = k' then none else mapGet m k' := by
  induction m with
  | nil => simp [mapRemove, mapGet]
  | cons e rest ih =>
    by_cases he : e.1 = k <;> by_cases he' : e.1 = k' <;> by_cases hk : k = k' <;>
      simp_all [mapRemove, mapGet]

theorem Heap.get_set (h : Heap) (i : Nat) (o : RemoteNodeObj) (j : Nat) :
    (h.set i o).get j = if i = j then some o else h.get j := by
  simp [Heap.get, Heap.set, mapGet_mapSet]

/-! ## C5: rename reparenting -/

/-- C5: after a successful `Rename` of `oldName` under directory `rnId` to
`newName` under directory `destId`, the source child map has no entry for
`oldName`, the destination child map maps `newName` to the very same node
object (`curId`), and that node's `RemotePath.Path` is
`path.Join(dest.Path, newName)`.  The node being moved must exist
(`hcur`), be a proper child (not one of the two directories), and the
degenerate rename of a name onto itself in the same directory is excluded. -/
theorem C5_rename_reparenting (h h3 : Heap) (rnId destId curId : Nat)
    (oldName newName : String) (rn destDir curRn : RemoteNodeObj) (err : Option Error)
    (hrn : h.get rnId = some rn) (hdest : h.get destId = some destDir)
    (hcur : mapGet rn.RemoteNodes oldName = some curId) (hcurn : h.get curId = some curRn)
    (hne1 : curId ≠ rnId) (hne2 : curId ≠ destId)
    (hne3 : ¬(rnId = destId ∧ oldName = newName))
    (hrun : RemoteNode.Rename h rnId destId oldName newName none = .ok (h3, err)) :
    err = none ∧
    ((h3.get rnId).map fun o => mapGet o.RemoteNodes oldName) = some none ∧
    ((h3.get destId).map fun o => mapGet o.RemoteNodes newName) = some (some curId) ∧
    h3.get curId = some { curRn with RemotePath :=
      { curRn.RemotePath with Path := pathJoin destDir.RemotePath.Path newName } } := by
  have hne1' : rnId ≠ curId := Ne.symm hne1
  have hne2' : destId ≠ curId := Ne.symm hne2
  by_cases hcase : rnId = destId
  · subst hcase
    have hdd : destDir = rn := by
      rw [hrn] at hdest
      exact (Option.some.injEq _ _ ▸ hdest).symm
    subst hdd
    have hnames : oldName ≠ newName := fun hh => hne3 ⟨rfl, hh⟩
    have hnames' : newName ≠ oldName := Ne.symm hnames
    simp only [RemoteNode.Rename, hrn, hcur, hcurn, Heap.get_set, if_neg hne1, if_pos,
      GoResult.ok.injEq, Prod.mk.injEq] at hrun
    obtain ⟨hh3, herr⟩ := hrun
    subst hh3; subst herr
    refine ⟨rfl, ?_, ?_, ?_⟩
    · simp [Heap.get_set, mapGet_mapSet, mapGet_mapRemove, hnames, hnames']
    · simp [Heap.get_set, mapGet_mapSet]
    · simp [Heap.get_set, hne1', hne2', hcurn]
  · have hcase' : destId ≠ rnId := fun hh => hcase hh.symm
    simp only [RemoteNode.Rename, hrn, hdest, hcur, hcurn, Heap.get_set, if_neg hne1,
      if_neg hne2, if_neg hcase, if_pos, GoResult.ok.injEq, Prod.mk.injEq] at hrun
    obtain ⟨hh3, herr⟩ := hrun
    subst hh3; subst herr
    refine ⟨rfl, ?_, ?_, ?_⟩
    · simp [Heap.get_set, hcase', mapGet_mapRemove, hrn]
    · simp [Heap.get_set, mapGet_mapSet]
    · simp [Heap.get_set, hne1', hne2', hcurn]

/-- Witness for C5: moving `x` from directory `/data/a` (node 1) to `y` under
`/data/b` (node 2); the moved node is object 3 and ends with path
`/data/b/y`. -/
theorem C5_rename_reparenting_witness :
    RemoteNode.Rename
        ⟨[(1, ⟨true, ⟨"h1", 8080, "/data/a"⟩, [("x", 3)]⟩),
          (2, ⟨true, ⟨"h1", 8080, "/data/b"⟩, []⟩),
          (3, ⟨false, ⟨"h1", 8080, "/data/a/x"⟩, []⟩)], 4⟩ 1 2 "x" "y" none =
      .ok (⟨[(1, ⟨true, ⟨"h1", 8080, "/data/a"⟩, []⟩),
          (2, ⟨true, ⟨"h1", 8080, "/data/b"⟩, [("y", 3)]⟩),
          (3, ⟨false, ⟨"h1", 8080, pathJoin "/data/b" "y"⟩, []⟩)], 4⟩, none) ∧
    ((⟨[(1, ⟨true, ⟨"h1", 8080, "/data/a"⟩, []⟩),
        (2, ⟨true, ⟨"h1", 8080, "/data/b"⟩, [("y", 3)]⟩),
        (3, ⟨false, ⟨"h1", 8080, pathJoin "/data/b" "y"⟩, []⟩)], 4⟩ : Heap).get 1).map
      (fun o => mapGet o.RemoteNodes "x") = some none ∧
    ((⟨[(1, ⟨true, ⟨"h1", 8080, "/data/a"⟩, []⟩),
        (2, ⟨true, ⟨"h1", 8080, "/data/b"⟩, [("y", 3)]⟩),
        (3, ⟨false, ⟨"h1", 8080, pathJoin "/data/b" "y"⟩, []⟩)], 4⟩ : Heap).get 2).map
      (fun o => mapGet o.RemoteNodes "y") = some (some 3) ∧
    ((⟨[(1, ⟨true, ⟨"h1", 8080, "/data/a"⟩, []⟩),
        (2, ⟨true, ⟨"h1", 8080, "/data/b"⟩, [("y", 3)]⟩),
        (3, ⟨false, ⟨"h1", 8080, pathJoin "/data/b" "y"⟩, []⟩)], 4⟩ : Heap).get 3).map
      (fun o => o.RemotePath.Path) = some (pathJoin "/data/b" "y") := by
  have h := C5_rename_reparenting
    ⟨[(1, ⟨true, ⟨"h1", 8080, "/data/a"⟩, [("x", 3)]⟩),
      (2, ⟨true, ⟨"h1", 8080, "/data/b"⟩, []⟩),
      (3, ⟨false, ⟨"h1", 8080, "/data/a/x"⟩, []⟩)], 4⟩
    ⟨[(1, ⟨true, ⟨"h1", 8080, "/data/a"⟩, []⟩),
      (2, ⟨true, ⟨"h1", 8080, "/data/b"⟩, [("y", 3)]⟩),
      (3, ⟨false, ⟨"h1", 8080, pathJoin "/data/b" "y"⟩, []⟩)], 4⟩
    1 2 3 "x" "y" ⟨true, ⟨"h1", 8080, "/data/a"⟩, [("x", 3)]⟩
    ⟨true, ⟨"h1", 8080, "/data/b"⟩, []⟩ ⟨false, ⟨"h1", 8080, "/data/a/x"⟩, []⟩ none
    (by decide) (by decide) (by decide) (by decide) (by decide) (by decide)
    (by simp) (by decide)
  exact ⟨by decide, h.2.1, h.2.2.1, by decide⟩

/-! ## Child-map population lemmas -/

theorem populateChildren_mapGet (stats : List Stat) :
    ∀ (h : Heap) (rn : RemoteNodeObj) (acc : List (String × Nat)) (n : String),
      (mapGet (populateChildren h rn acc stats).2 n).isSome = true ↔
        n ∈ stats.map Stat.Name ∨ (mapGet acc n).isSome = true := by
  induction stats with
  | nil =>
    intro h rn acc n
    simp [populateChildren]
  | cons s rest ih =>
    intro h rn acc n
    simp only [populateChildren, generateChildRemoteNode, Heap.alloc, List.map_cons,
      List.mem_cons]
    rw [ih]
    rw [mapGet_mapSet]
    by_cases hn : s.Name = n
    · simp [hn]
    · have hn' : ¬n = s.Name := fun hh => hn hh.symm
      simp [hn, hn']

/-! ## C6: Lookup -/

/-- C6: a `Lookup` hit returns the mapped node with no RPC; a miss issues
exactly one `ReadDirAllRequest` carrying the node's `RemotePath`, repopulates
the child map from the returned stats, retries the lookup on the fresh map,
and returns `fuse.ENOENT` exactly when the name is absent from the returned
enumeration. -/
theorem C6_lookup_hit_miss (h : Heap) (rnId : Nat) (name : String) (resp : Packet)
    (rn : RemoteNodeObj) (hrn : h.get rnId = some rn) :
    (∀ cid, mapGet rn.RemoteNodes name = some cid →
      RemoteNode.Lookup h rnId name resp = .ok (h, [], .found cid)) ∧
    (mapGet rn.RemoteNodes name = none → ∀ di, resp.Data = .pDirInfo di →
      ∃ (h3 : Heap) (children : List (String × Nat)) (r : LookupOutcome),
        RemoteNode.Lookup h rnId name resp =
          .ok (h3, [(ReadDirAllRequest, .pRemotePath rn.RemotePath)], r) ∧
        h3.get rnId = some { rn with RemoteNodes := children } ∧
        (∀ n, (mapGet children n).isSome = true ↔ n ∈ di.Stats.map Stat.Name) ∧
        (r = .enoent ↔ name ∉ di.Stats.map Stat.Name)) := by
  constructor
  · intro cid hcid
    simp [RemoteNode.Lookup, hrn, hcid]
  · intro hmiss di hdi
    rcases hpc : populateChildren h rn [] di.Stats with ⟨h2c, children⟩
    have hchar : ∀ n, (mapGet children n).isSome = true ↔ n ∈ di.Stats.map Stat.Name := by
      intro n
      have hpm := populateChildren_mapGet di.Stats h rn [] n
      rw [hpc] at hpm
      simpa [mapGet] using hpm
    cases hmg : mapGet children name with
    | some cid =>
      refine ⟨h2c.set rnId { rn with RemoteNodes := children }, children, .found cid,
        ?_, ?_, hchar, ?_⟩
      · simp [RemoteNode.Lookup, hrn, hmiss, hdi, Payload.asValError, Payload.asPtrDirInfo,
          hpc, hmg]
      · simp [Heap.get_set]
      · have hin : name ∈ di.Stats.map Stat.Name := (hchar name).mp (by simp [hmg])
        simp [hin]
    | none =>
      refine ⟨h2c.set rnId { rn with RemoteNodes := children }, children, .enoent,
        ?_, ?_, hchar, ?_⟩
      · simp [RemoteNode.Lookup, hrn, hmiss, hdi, Payload.asValError, Payload.asPtrDirInfo,
          hpc, hmg]
      · simp [Heap.get_set]
      · have hnotin : name ∉ di.Stats.map Stat.Name := by
          intro hin
          have hsome := (hchar name).mpr hin
          simp [hmg] at hsome
        simp [hnotin]

/-- Witness for C6: a hit on child `a` answers from the map with no RPC; a
miss on `b` issues one `ReadDirAllRequest` and, with the agent returning the
single stat `b`, finds it. -/
theorem C6_lookup_hit_miss_witness :
    (RemoteNode.Lookup ⟨[(1, ⟨true, ⟨"h1", 8080, "/data"⟩, [("a", 2)]⟩),
        (2, ⟨false, ⟨"h1", 8080, "/data/a"⟩, []⟩)], 3⟩ 1 "a"
        ⟨0, 1, 9, StatsResponse, .pDirInfo ⟨[⟨"b", false, 420, 7, 5⟩]⟩⟩ =
      .ok (⟨[(1, ⟨true, ⟨"h1", 8080, "/data"⟩, [("a", 2)]⟩),
        (2, ⟨false, ⟨"h1", 8080, "/data/a"⟩, []⟩)], 3⟩, [], .found 2)) ∧
    (∃ (h3 : Heap) (children : List (String × Nat)) (r : LookupOutcome),
      RemoteNode.Lookup ⟨[(1, ⟨true, ⟨"h1", 8080, "/data"⟩, [("a", 2)]⟩),
          (2, ⟨false, ⟨"h1", 8080, "/data/a"⟩, []⟩)], 3⟩ 1 "b"
          ⟨0, 1, 9, StatsResponse, .pDirInfo ⟨[⟨"b", false, 420, 7, 5⟩]⟩⟩ =
        .ok (h3, [(ReadDirAllRequest, .pRemotePath ⟨"h1", 8080, "/data"⟩)], r) ∧
      h3.get 1 = some ⟨true, ⟨"h1", 8080, "/data"⟩, children⟩ ∧
      (∀ n, (mapGet children n).isSome = true ↔
        n ∈ ([⟨"b", false, 420, 7, 5⟩] : List Stat).map Stat.Name) ∧
      (r = .enoent ↔ "b" ∉ ([⟨"b", false, 420, 7, 5⟩] : List Stat).map Stat.Name)) := by
  have h := C6_lookup_hit_miss ⟨[(1, ⟨true, ⟨"h1", 8080, "/data"⟩, [("a", 2)]⟩),
      (2, ⟨false, ⟨"h1", 8080, "/data/a"⟩, []⟩)], 3⟩ 1 "b"
    ⟨0, 1, 9, StatsResponse, .pDirInfo ⟨[⟨"b", false, 420, 7, 5⟩]⟩⟩
    ⟨true, ⟨"h1", 8080, "/data"⟩, [("a", 2)]⟩ (by decide)
  have h2 := C6_lookup_hit_miss ⟨[(1, ⟨true, ⟨"h1", 8080, "/data"⟩, [("a", 2)]⟩),
      (2, ⟨false, ⟨"h1", 8080, "/data/a"⟩, []⟩)], 3⟩ 1 "a"
    ⟨0, 1, 9, StatsResponse, .pDirInfo ⟨[⟨"b", false, 420, 7, 5⟩]⟩⟩
    ⟨true, ⟨"h1", 8080, "/data"⟩, [("a", 2)]⟩ (by decide)
  exact ⟨h2.1 2 (by decide), h.2 (by decide) ⟨[⟨"b", false, 420, 7, 5⟩]⟩ rfl⟩

/-! ## C7: child-map coherence after Create / Mkdir / Remove -/

/-- C7: after a successful `Create` or `Mkdir` of name `n`, `Lookup n` on the
directory returns the inserted child from the map without issuing any RPC,
whatever response the talker would have produced; after a successful
`Remove` of `n`, `Lookup n` misses the map, issues one `ReadDirAllRequest`
round trip, and returns `fuse.ENOENT` when the remote enumeration no longer
lists `n`. -/
theorem C7_child_map_coherence (h : Heap) (rnId : Nat) (n : String) (rn : RemoteNodeObj)
    (hrn : h.get rnId = some rn) :
    (∀ fd, ∃ (h1 : Heap) (newId : Nat),
      RemoteNode.Create h rnId n (.ok fd) = .ok (h1, some (newId, fd), none) ∧
      ∀ resp, RemoteNode.Lookup h1 rnId n resp = .ok (h1, [], .found newId)) ∧
    (∃ (h1 : Heap) (newId : Nat),
      RemoteNode.Mkdir h rnId n none = .ok (h1, some newId, none) ∧
      ∀ resp, RemoteNode.Lookup h1 rnId n resp = .ok (h1, [], .found newId)) ∧
    (∃ h2 : Heap,
      RemoteNode.Remove h rnId n none = .ok (h2, none) ∧
      ∀ (resp : Packet) (di : DirInfo), resp.Data = .pDirInfo di →
        n ∉ di.Stats.map Stat.Name →
        ∃ h3 : Heap, RemoteNode.Lookup h2 rnId n resp =
          .ok (h3, [(ReadDirAllRequest, .pRemotePath rn.RemotePath)], .enoent)) := by
  refine ⟨?_, ?_, ?_⟩
  · intro fd
    refine ⟨(h.alloc ⟨false, ⟨rn.RemotePath.Hostname, rn.RemotePath.Port,
        pathJoin rn.RemotePath.Path n⟩, []⟩).1.set rnId
        { rn with RemoteNodes := mapSet rn.RemoteNodes n h.nextId }, h.nextId, ?_, ?_⟩
    · simp [RemoteNode.Create, hrn, generateChildRemoteNode, Heap.alloc]
    · intro resp
      simp [RemoteNode.Lookup, Heap.get_set, mapGet_mapSet]
  · refine ⟨(h.alloc ⟨true, ⟨rn.RemotePath.Hostname, rn.RemotePath.Port,
        pathJoin rn.RemotePath.Path n⟩, []⟩).1.set rnId
        { rn with RemoteNodes := mapSet rn.RemoteNodes n h.nextId }, h.nextId, ?_, ?_⟩
    · simp [RemoteNode.Mkdir, hrn, generateChildRemoteNode, Heap.alloc]
    · intro resp
      simp [RemoteNode.Lookup, Heap.get_set, mapGet_mapSet]
  · refine ⟨h.set rnId { rn with RemoteNodes := mapRemove rn.RemoteNodes n }, ?_, ?_⟩
    · simp [RemoteNode.Remove, hrn]
    · intro resp di hdi hnot
      rcases hpc : populateChildren (h.set rnId { rn with RemoteNodes := mapRemove rn.RemoteNodes n })
          { rn with RemoteNodes := mapRemove rn.RemoteNodes n } [] di.Stats with ⟨h2c, children⟩
      have hmg : mapGet children n = none := by
        have hpm := populateChildren_mapGet di.Stats
          (h.set rnId { rn with RemoteNodes := mapRemove rn.RemoteNodes n })
          { rn with RemoteNodes := mapRemove rn.RemoteNodes n } [] n
        rw [hpc] at hpm
        simp only [mapGet, Option.isSome_none, Bool.false_eq_true, or_false] at hpm
        cases hmg2 : mapGet children n with
        | none => rfl
        | some cid =>
          exact absurd (hpm.mp (by simp [hmg2])) hnot
      refine ⟨h2c.set rnId { rn with RemoteNodes := children }, ?_⟩
      simp [RemoteNode.Lookup, Heap.get_set, mapGet_mapRemove_self, hdi,
        Payload.asValError, Payload.asPtrDirInfo, hpc, hmg]

/-- Witness for C7: create `f` under `/data` then look it up with no RPC;
remove `z` then look it up against an enumeration not listing `z`. -/
theorem C7_child_map_coherence_witness :
    (∃ (h1 : Heap) (newId : Nat),
      RemoteNode.Create ⟨[(1, ⟨true, ⟨"h1", 8080, "/data"⟩, [("z", 2)]⟩),
          (2, ⟨false, ⟨"h1", 8080, "/data/z"⟩, []⟩)], 3⟩ 1 "f" (.ok 9) =
        .ok (h1, some (newId, 9), none) ∧
      ∀ resp, RemoteNode.Lookup h1 1 "f" resp = .ok (h1, [], .found newId)) ∧
    (∃ h2 : Heap,
      RemoteNode.Remove ⟨[(1, ⟨true, ⟨"h1", 8080, "/data"⟩, [("z", 2)]⟩),
          (2, ⟨false, ⟨"h1", 8080, "/data/z"⟩, []⟩)], 3⟩ 1 "z" none = .ok (h2, none) ∧
      ∀ (resp : Packet) (di : DirInfo), resp.Data = .pDirInfo di →
        "z" ∉ di.Stats.map Stat.Name →
        ∃ h3 : Heap, RemoteNode.Lookup h2 1 "z" resp =
          .ok (h3, [(ReadDirAllRequest, .pRemotePath ⟨"h1", 8080, "/data"⟩)], .enoent)) := by
  have hc := C7_child_map_coherence ⟨[(1, ⟨true, ⟨"h1", 8080, "/data"⟩, [("z", 2)]⟩),
      (2, ⟨false, ⟨"h1", 8080, "/data/z"⟩, []⟩)], 3⟩ 1 "f"
    ⟨true, ⟨"h1", 8080, "/data"⟩, [("z", 2)]⟩ (by decide)
  have hr := C7_child_map_coherence ⟨[(1, ⟨true, ⟨"h1", 8080, "/data"⟩, [("z", 2)]⟩),
      (2, ⟨false, ⟨"h1", 8080, "/data/z"⟩, []⟩)], 3⟩ 1 "z"
    ⟨true, ⟨"h1", 8080, "/data"⟩, [("z", 2)]⟩ (by decide)
  exact ⟨hc.1 9, hr.2.2⟩

/-! ## C8: keepalive -/

theorem poolPingEvents_count (wf : String → Nat → Bool) (hst h0 : String) (i : Nat) :
    ∀ cnt, ((poolPingEvents hst cnt wf).filter
      (fun e => decide (e.Hostname = h0 ∧ e.Index = i))).length =
      if hst = h0 ∧ i < cnt then 1 else 0 := by
  intro cnt
  induction cnt with
  | zero => simp [poolPingEvents]
  | succ m ih =>
    simp only [poolPingEvents, List.range_succ, List.map_append, List.map_cons, List.map_nil,
      List.filter_append, List.length_append] at ih ⊢
    rw [ih]
    simp only [List.filter_cons, List.filter_nil, decide_eq_true_eq, List.length_cons,
      List.length_nil]
    by_cases h1 : hst = h0 <;> by_cases h2 : m = i <;> simp [h1, h2] <;> split_ifs <;> omega

theorem tickEvents_count_zero (wf : String → Nat → Bool) (h0 : String) (i : Nat) :
    ∀ pools : List (String × Nat), h0 ∉ pools.map Prod.fst →
      ((tickEvents wf pools).filter
        (fun e => decide (e.Hostname = h0 ∧ e.Index = i))).length = 0 := by
  intro pools
  induction pools with
  | nil => intro _; rfl
  | cons pl rest ih =>
    intro habs
    obtain ⟨h1, cnt1⟩ := pl
    simp only [List.map_cons, List.mem_cons, not_or] at habs
    simp only [tickEvents, List.filter_append, List.length_append]
    rw [poolPingEvents_count, ih habs.2]
    have : ¬(h1 = h0 ∧ i < cnt1) := fun hc => habs.1 hc.1.symm
    simp [this]

theorem tickEvents_count_one (wf : String → Nat → Bool) :
    ∀ pools : List (String × Nat), (pools.map Prod.fst).Nodup →
      ∀ (hst : String) (cnt i : Nat), (hst, cnt) ∈ pools → i < cnt →
        ((tickEvents wf pools).filter
          (fun e => decide (e.Hostname = hst ∧ e.Index = i))).length = 1 := by
  intro pools
  induction pools with
  | nil => intro _ hst cnt i hmem; simp at hmem
  | cons pl rest ih =>
    intro hnd hst cnt i hmem hi
    obtain ⟨h1, cnt1⟩ := pl
    simp only [List.map_cons, List.nodup_cons] at hnd
    simp only [tickEvents, List.filter_append, List.length_append]
    rcases List.mem_cons.mp hmem with heq | hmem2
    · obtain ⟨he1, he2⟩ := Prod.mk.injEq _ _ _ _ ▸ heq
      subst he1; subst he2
      rw [poolPingEvents_count, tickEvents_count_zero wf hst i rest hnd.1]
      simp [hi]
    · have hne : h1 ≠ hst := by
        intro hh
        subst hh
        exact hnd.1 (List.mem_map.mpr ⟨(h1, cnt), hmem2, rfl⟩)
      rw [poolPingEvents_count, ih hnd.2 hst cnt i hmem2 hi]
      simp [hne]

/-- C8: the keepalive loop writes exactly one ping frame per connection of
every pool on every tick, and returns normally for every sequence of
write-failure outcomes — a failed ping write takes the warning branch and
never terminates the worker or the process. -/
theorem C8_keepalive_one_ping_per_connection (pools : List (String × Nat))
    (ticks : List (String → Nat → Bool)) (hnodup : (pools.map Prod.fst).Nodup) :
    setupPing pools ticks =
      .ok (ticks.foldr (fun wfail acc => tickEvents wfail pools ++ acc) []) ∧
    ∀ (wfail : String → Nat → Bool) (hst : String) (cnt i : Nat),
      (hst, cnt) ∈ pools → i < cnt →
      ((tickEvents wfail pools).filter
        (fun e => decide (e.Hostname = hst ∧ e.Index = i))).length = 1 := by
  constructor
  · induction ticks with
    | nil => rfl
    | cons wfail rest ih => simp [setupPing, ih]
  · intro wfail hst cnt i hmem hi
    exact tickEvents_count_one wfail pools hnodup hst cnt i hmem hi

/-- Witness for C8: two pools with two and one connections, one all-failing
tick and one all-succeeding tick; every connection gets exactly one ping per
tick and the loop returns normally. -/
theorem C8_keepalive_one_ping_per_connection_witness :
    setupPing [("h1", 2), ("h2", 1)] [fun _ _ => true, fun _ _ => false] =
      .ok ([fun _ _ => true, fun _ _ => false].foldr
        (fun wfail acc => tickEvents wfail [("h1", 2), ("h2", 1)] ++ acc) []) ∧
    ((tickEvents (fun _ _ => true) [("h1", 2), ("h2", 1)]).filter
      (fun e => decide (e.Hostname = "h1" ∧ e.Index = 1))).length = 1 := by
  have h := C8_keepalive_one_ping_per_connection [("h1", 2), ("h2", 1)]
    [fun _ _ => true, fun _ _ => false] (by simp)
  exact ⟨h.1, h.2 (fun _ _ => true) "h1" 2 1 (by simp) (by norm_num)⟩

end Ifs
